import Mathlib

/-!
Verification of the Phomemo-M02-Web image/text-to-bitmap conversion pipeline.

This file gives a shallow embedding, in Lean 4, of the algorithmic core of the
repository:

* `src/logic/imagehelper.ts` — geometry (width/height percentage clamps,
  output-height computation), the paper-thickness tone adjustment, the five
  half-toning algorithms (Basic, Dither/Floyd-Steinberg, Atkinson, Bayer,
  SierraLite) and the MSB-first bit packing;
* `src/logic/textprinter.ts` — text wrapping and the total-height computation
  of `renderTextDocument`;
* `src/stores/imageconverter.ts` — the throttling/coalescing scheduler
  (`convertImage`) and the abort-controller cancellation discipline
  (`convertImageInternal`).

Modelling conventions:

* JS numbers are modelled as `ℚ` (exact rationals) where fractional values
  occur, as `ℤ` for millisecond timestamps, and as `ℕ` for sizes and indices.
* JS `Math.round` is `jsRound q = ⌊q + 1/2⌋`, its behaviour on finite values.
* Typed arrays (`Float32Array`, `Uint8ClampedArray`) are modelled as Lean
  lists: `List.set` is a no-op on an out-of-range index, exactly like an
  out-of-range store to a JS typed array, and reads use `List.getD`.
  (`Uint8ClampedArray` clamps stored values to 0..255; the packed-bit stores
  here are always `old ||| bit` with values below 256, so the clamp never
  fires and is not modelled.)
* External capabilities (canvas drawing, the OpenCV filters, font
  measurement) are abstracted as function parameters; the pixel data of the
  canvas after the draw stage is an arbitrary function `ℕ → ℚ` giving the
  RGBA byte at each flat `data` index.
-/

/-- JS `Math.round` on finite values: round half up. -/
def jsRound (q : ℚ) : ℤ := ⌊q + 1/2⌋

/- Typed-array access lemmas: `List.set` models a store to a JS typed array
(no-op when the index is out of range), `List.getD` models a load. -/

theorem getD_set_self (l : List ℚ) (i : ℕ) (v : ℚ) (h : i < l.length) :
    (l.set i v).getD i 0 = v := by
  simp [List.getD_eq_getElem?_getD, List.getElem?_set_self, h]

theorem getD_set_ne (l : List ℚ) (i j : ℕ) (v : ℚ) (h : i ≠ j) :
    (l.set i v).getD j 0 = l.getD j 0 := by
  simp [List.getD_eq_getElem?_getD, List.getElem?_set_ne h]

theorem foldl_length_inv {α β : Type} (f : List α → β → List α)
    (hf : ∀ l b, (f l b).length = l.length) :
    ∀ (bs : List β) (l : List α), (bs.foldl f l).length = l.length := by
  intro bs
  induction bs with
  | nil => intro l; rfl
  | cons b bs ih => intro l; rw [List.foldl_cons, ih, hf]

/-! ## Data model (`src/logic/printerimage.ts`) -/

inductive Algorithm
  | Basic | Dither | Atkinson | Bayer | SierraLite
deriving DecidableEq

inductive PaperThickness
  | none | light | medium | heavy | dedicated
deriving DecidableEq

/-- `ImageConversionOptions` from `src/logic/printerimage.ts`, restricted to
the fields the conversion pipeline's arithmetic depends on.  The fields that
only select external capabilities (`preprocessFilter`, `filterOrder`,
`imageSmoothing*`, `resizeAlgorithm`, `sharpen*`) are abstracted away: their
effect is entirely contained in the canvas pixel data that the pixel engine
samples, which the model takes as an opaque function. -/
structure ImageConversionOptions where
  rotation : ℕ
  threshold : ℚ
  invert : Bool
  algorithm : Algorithm
  contrast : ℚ
  exposure : ℚ
  heightPercentage : ℚ
  widthPercentage : ℚ
  paperThickness : PaperThickness

/-- `PrinterImage` from `src/logic/printerimage.ts`: a packed 1-bit bitmap,
8 pixels per byte. -/
structure PrinterImage where
  width : ℕ
  height : ℕ
  bits : List ℕ

/-! ## Tone adjustment (`convertImageToBitsInternal`, lines 249–279) -/

/-- Result of the paper-thickness adjustment: the three `adjusted*` local
variables of `convertImageToBitsInternal`. -/
structure AdjustedTone where
  adjustedContrast : ℚ
  adjustedExposure : ℚ
  adjustedThreshold : ℚ
deriving DecidableEq

/-- The `switch (options.paperThickness)` block of
`convertImageToBitsInternal` (imagehelper.ts lines 249–279). -/
def adjustForPaperThickness (threshold contrast exposure : ℚ)
    (paperThickness : PaperThickness) : AdjustedTone :=
  match paperThickness with
  | .light =>
      { adjustedContrast := contrast
        adjustedExposure := exposure * 1.15
        adjustedThreshold := min 255 (threshold + 12) }
  | .medium =>
      { adjustedContrast := contrast
        adjustedExposure := exposure
        adjustedThreshold := threshold }
  | .heavy =>
      { adjustedContrast := contrast
        adjustedExposure := exposure * 0.92
        adjustedThreshold := max 0 (threshold - 13) }
  | .dedicated =>
      { adjustedContrast := contrast * 1.1
        adjustedExposure := exposure
        adjustedThreshold := max 0 (threshold - 3) }
  | .none =>
      { adjustedContrast := contrast
        adjustedExposure := exposure
        adjustedThreshold := threshold }

/-- The adjusted tone derived from an options record, as
`convertImageToBitsInternal` computes it from `options.threshold`,
`options.contrast`, `options.exposure` and `options.paperThickness`. -/
def adjustedToneOf (opts : ImageConversionOptions) : AdjustedTone :=
  adjustForPaperThickness opts.threshold opts.contrast opts.exposure
    opts.paperThickness

/-! ## Geometry (`convertImageToBitsInternal`, lines 188–200) -/

/-- `Math.max(1, Math.min(100, options.widthPercentage ?? 100))`
(imagehelper.ts line 188). -/
def clampedWidthPercentage (wp : ℚ) : ℚ := max 1 (min 100 wp)

/-- `Math.round(outputWidthPixel * (widthPercentage / 100))`
(imagehelper.ts line 189). -/
def actualImageWidth (outputWidthPixel : ℕ) (wp : ℚ) : ℤ :=
  jsRound (outputWidthPixel * (clampedWidthPercentage wp / 100))

/-- Lines 191–196: the full (100%-height) output height, from the processed
image's aspect ratio, swapped for 90/270 rotation. -/
def fullOutputHeight (imageWidth imageHeight : ℕ) (rotation : ℕ)
    (aiw : ℤ) : ℤ :=
  if rotation = 90 ∨ rotation = 270 then
    jsRound (aiw * ((imageWidth : ℚ) / (imageHeight : ℚ)))
  else
    jsRound (aiw * ((imageHeight : ℚ) / (imageWidth : ℚ)))

/-- `Math.max(0, Math.min(100, options.heightPercentage ?? 100))`
(imagehelper.ts line 199). -/
def clampedHeightPercentage (hp : ℚ) : ℚ := max 0 (min 100 hp)

/-- `Math.round(fullOutputHeight * (heightPercentage / 100))`
(imagehelper.ts line 200). -/
def outputHeightOf (foh : ℤ) (hp : ℚ) : ℤ :=
  jsRound (foh * (clampedHeightPercentage hp / 100))

/-- The output height `convertImageToBitsInternal` records in the returned
`PrinterImage`, as a natural number (it is used as a loop bound and an
allocation size; on the nonnegative values that occur it coincides with the
JS number). -/
def modelOutputHeight (imageWidth imageHeight outputWidthPixel : ℕ)
    (opts : ImageConversionOptions) : ℕ :=
  (outputHeightOf
      (fullOutputHeight imageWidth imageHeight opts.rotation
        (actualImageWidth outputWidthPixel opts.widthPercentage))
      opts.heightPercentage).toNat

/-! ## Pixel engine (`convertImageToBitsInternal`, lines 408–647)

The canvas pixel data after the draw/filter/adjust stages is the
`sampledImage.data` byte buffer; the model takes it as an opaque function
`data : ℕ → ℚ` from flat byte index to channel value.  The canvas width
equals `outputWidthPixel` (asserted at line 649 of the source), so the model
uses a single `w` for both. -/

/-- Grayscale of the pixel at `(x, y)`:
`(data[idx] + data[idx+1] + data[idx+2]) / 3.0` with
`idx = (y * canvas.width + x) * 4`, as computed identically in the Dither,
Atkinson, Bayer and SierraLite branches. -/
def grayAt (data : ℕ → ℚ) (w x y : ℕ) : ℚ :=
  (data ((y * w + x) * 4) + data ((y * w + x) * 4 + 1) +
    data ((y * w + x) * 4 + 2)) / 3

/-- The `getPixel` closure of the `Basic` branch (lines 413–416): black iff
the SUM of the three channels is below `adjustedThreshold * 3.0`. -/
def basicGetPixel (data : ℕ → ℚ) (w : ℕ) (adjustedThreshold : ℚ)
    (x y : ℕ) : Bool :=
  decide (data ((y * w + x) * 4) + data ((y * w + x) * 4 + 1) +
    data ((y * w + x) * 4 + 2) < adjustedThreshold * 3)

/-- The 8×8 Bayer matrix of the `Bayer` branch (lines 554–563). -/
def bayerMatrix8x8 : List (List ℕ) :=
  [[ 0, 32,  8, 40,  2, 34, 10, 42],
   [48, 16, 56, 24, 50, 18, 58, 26],
   [12, 44,  4, 36, 14, 46,  6, 38],
   [60, 28, 52, 20, 62, 30, 54, 22],
   [ 3, 35, 11, 43,  1, 33,  9, 41],
   [51, 19, 59, 27, 49, 17, 57, 25],
   [15, 47,  7, 39, 13, 45,  5, 37],
   [63, 31, 55, 23, 61, 29, 53, 21]]

/-- Per-pixel black decision of the `Bayer` branch (lines 566–589). -/
def bayerGetPixel (data : ℕ → ℚ) (w : ℕ) (adjustedThreshold : ℚ)
    (x y : ℕ) : Bool :=
  let gray := grayAt data w x y
  let bayerValue := (bayerMatrix8x8.getD (y % 8) []).getD (x % 8) 0
  let bayerOffset := ((bayerValue : ℚ) - 31.5) * 2
  let finalThreshold := adjustedThreshold + bayerOffset
  decide (gray < finalThreshold)

/-- Grayscale buffer construction shared by the Dither, Atkinson and
SierraLite branches: `grayscale[y * w + x] = grayAt data w x y` for
`y < h`, `x < w` (a `Float32Array` of length `w * h`). -/
def mkGrayscale (data : ℕ → ℚ) (w h : ℕ) : List ℚ :=
  (List.range (h * w)).map (fun i => grayAt data w (i % w) (i / w))

/-- One pixel of the Floyd–Steinberg loop of the `Dither` branch
(lines 447–470): quantize `grayscale[idx]` against the threshold and
distribute the error 7/16 right, 3/16 below-left, 5/16 below, 1/16
below-right, each store guarded by a bounds check. -/
def ditherStep (w h : ℕ) (adjustedThreshold : ℚ) (g : List ℚ)
    (x y : ℕ) : List ℚ :=
  let idx := y * w + x
  let oldPixel := g.getD idx 0
  let newPixel : ℚ := if oldPixel < adjustedThreshold then 0 else 255
  let g := g.set idx newPixel
  let error := oldPixel - newPixel
  let g := if x + 1 < w then
      g.set (idx + 1) (g.getD (idx + 1) 0 + error * 7 / 16) else g
  if y + 1 < h then
    let g := if 0 < x then
        g.set (idx + w - 1) (g.getD (idx + w - 1) 0 + error * 3 / 16) else g
    let g := g.set (idx + w) (g.getD (idx + w) 0 + error * 5 / 16)
    if x + 1 < w then
      g.set (idx + w + 1) (g.getD (idx + w + 1) 0 + error * 1 / 16) else g
  else g

/-- One pixel of the Atkinson loop (lines 502–533): distribute `error / 8`
to right, two-right, below-left, below, below-right and two-below; the
remaining `2/8` of the error is not stored anywhere. -/
def atkinsonStep (w h : ℕ) (adjustedThreshold : ℚ) (g : List ℚ)
    (x y : ℕ) : List ℚ :=
  let idx := y * w + x
  let oldPixel := g.getD idx 0
  let newPixel : ℚ := if oldPixel < adjustedThreshold then 0 else 255
  let g := g.set idx newPixel
  let error := oldPixel - newPixel
  let g := if x + 1 < w then
      g.set (idx + 1) (g.getD (idx + 1) 0 + error / 8) else g
  let g := if x + 2 < w then
      g.set (idx + 2) (g.getD (idx + 2) 0 + error / 8) else g
  let g := if y + 1 < h then
      (let g := if 0 < x then
          g.set (idx + w - 1) (g.getD (idx + w - 1) 0 + error / 8) else g
       let g := g.set (idx + w) (g.getD (idx + w) 0 + error / 8)
       if x + 1 < w then
         g.set (idx + w + 1) (g.getD (idx + w + 1) 0 + error / 8) else g)
    else g
  if y + 2 < h then
    g.set (idx + 2 * w) (g.getD (idx + 2 * w) 0 + error / 8)
  else g

/-- One pixel of the Sierra Lite loop (lines 607–628): distribute
`error * 2/4` right, `error / 4` below-left and below. -/
def sierraLiteStep (w h : ℕ) (adjustedThreshold : ℚ) (g : List ℚ)
    (x y : ℕ) : List ℚ :=
  let idx := y * w + x
  let oldPixel := g.getD idx 0
  let newPixel : ℚ := if oldPixel < adjustedThreshold then 0 else 255
  let g := g.set idx newPixel
  let error := oldPixel - newPixel
  let g := if x + 1 < w then
      g.set (idx + 1) (g.getD (idx + 1) 0 + error * 2 / 4) else g
  if y + 1 < h then
    let g := if 0 < x then
        g.set (idx + w - 1) (g.getD (idx + w - 1) 0 + error / 4) else g
    g.set (idx + w) (g.getD (idx + w) 0 + error / 4)
  else g

/-- Dispatch of the per-pixel error-diffusion step by algorithm (identity
for the two non-diffusing algorithms). -/
def diffusionStep (alg : Algorithm) (w h : ℕ) (adjustedThreshold : ℚ)
    (g : List ℚ) (x y : ℕ) : List ℚ :=
  match alg with
  | .Dither => ditherStep w h adjustedThreshold g x y
  | .Atkinson => atkinsonStep w h adjustedThreshold g x y
  | .SierraLite => sierraLiteStep w h adjustedThreshold g x y
  | _ => g

/-- The row-major double loop `for y { for x { step } }` driving an
error-diffusion pass. -/
def runDiffusion (step : List ℚ → ℕ → ℕ → List ℚ) (w h : ℕ)
    (g : List ℚ) : List ℚ :=
  (List.range h).foldl
    (fun g y => (List.range w).foldl (fun g x => step g x y) g) g

/-- The shared bit-packing loop (identical in all five branches): row-major,
8 pixels per byte, MSB first; `bits[y * w / 8 + x] |= result << (7 - bit)`,
skipping bits whose pixel column would pass the right edge (the `break` in
the source: once `pixelX >= w` every later bit of the byte also is). -/
def packBits (w h : ℕ) (pixelBlack : ℕ → ℕ → Bool) (invert : Bool) :
    List ℕ :=
  (List.range h).foldl
    (fun bits y =>
      (List.range (w / 8)).foldl
        (fun bits x =>
          (List.range 8).foldl
            (fun bits bit =>
              let pixelX := x * 8 + bit
              if pixelX < w then
                let pixelValue := pixelBlack pixelX y
                let result : ℕ :=
                  if invert then (if pixelValue then 0 else 1)
                  else (if pixelValue then 1 else 0)
                bits.set (y * w / 8 + x)
                  (bits.getD (y * w / 8 + x) 0 ||| (result <<< (7 - bit)))
              else bits)
            bits)
        bits)
    (List.replicate (h * w / 8) 0)

/-- The `switch (options.algorithm)` block (lines 410–647) producing the
packed bit buffer from the sampled canvas data. -/
def algorithmBits (alg : Algorithm) (data : ℕ → ℚ) (w h : ℕ)
    (adjustedThreshold : ℚ) (invert : Bool) : List ℕ :=
  match alg with
  | .Basic =>
      packBits w h (basicGetPixel data w adjustedThreshold) invert
  | .Dither =>
      let g := runDiffusion (ditherStep w h adjustedThreshold) w h
        (mkGrayscale data w h)
      packBits w h (fun x y => decide (g.getD (y * w + x) 0 < adjustedThreshold))
        invert
  | .Atkinson =>
      let g := runDiffusion (atkinsonStep w h adjustedThreshold) w h
        (mkGrayscale data w h)
      packBits w h (fun x y => decide (g.getD (y * w + x) 0 < adjustedThreshold))
        invert
  | .Bayer =>
      packBits w h (bayerGetPixel data w adjustedThreshold) invert
  | .SierraLite =>
      let g := runDiffusion (sierraLiteStep w h adjustedThreshold) w h
        (mkGrayscale data w h)
      packBits w h (fun x y => decide (g.getD (y * w + x) 0 < adjustedThreshold))
        invert

/-- `convertImageToBitsInternal` (imagehelper.ts lines 134–663), restricted
to its arithmetic core: geometry, paper-thickness tone adjustment and the
half-toning/bit-packing stage.  The external stages (preprocess filters,
auto adjustments, sharpening, OpenCV/canvas resampling, the contrast and
brightness draw filters) only determine the sampled canvas pixels, which
enter through `data`. -/
def convertImageToBitsModel (imageWidth imageHeight outputWidthPixel : ℕ)
    (opts : ImageConversionOptions) (data : ℕ → ℚ) : PrinterImage :=
  let outputHeight := modelOutputHeight imageWidth imageHeight
    outputWidthPixel opts
  let tone := adjustedToneOf opts
  { width := outputWidthPixel
    height := outputHeight
    bits := algorithmBits opts.algorithm data outputWidthPixel outputHeight
      tone.adjustedThreshold opts.invert }

/-! ## Length invariant of the packed bit buffer -/

theorem packBits_length (w h : ℕ) (pixelBlack : ℕ → ℕ → Bool)
    (invert : Bool) : (packBits w h pixelBlack invert).length = h * w / 8 := by
  unfold packBits
  rw [foldl_length_inv, List.length_replicate]
  intro bits y
  rw [foldl_length_inv]
  intro bits x
  rw [foldl_length_inv]
  intro bits bit
  dsimp only
  split
  · exact List.length_set ..
  · rfl

theorem algorithmBits_length (alg : Algorithm) (data : ℕ → ℚ) (w h : ℕ)
    (thr : ℚ) (invert : Bool) :
    (algorithmBits alg data w h thr invert).length = h * w / 8 := by
  cases alg <;> simp [algorithmBits, packBits_length]

/-- C1: for every input raster, every positive multiple-of-8 output width,
every algorithm and both invert values, the returned `PrinterImage` has a
`bits` buffer of length exactly `(outputWidth / 8) * outputHeight`, where
`outputHeight` is the height recorded in the returned image. -/
theorem convertImageToBits_bits_length (imageWidth imageHeight w : ℕ)
    (opts : ImageConversionOptions) (data : ℕ → ℚ)
    (h8 : 8 ∣ w) (hw : 0 < w) :
    (convertImageToBitsModel imageWidth imageHeight w opts data).bits.length
      = w / 8 *
        (convertImageToBitsModel imageWidth imageHeight w opts data).height := by
  show (algorithmBits _ _ _ _ _ _).length = _
  rw [algorithmBits_length, Nat.mul_div_assoc _ h8, Nat.mul_comm]
  rfl

/-- Witness for C1 at a concrete input: width 384 = 48 bytes per row. -/
theorem convertImageToBits_bits_length_witness :
    (8 ∣ 384) ∧ 0 < 384 ∧
    (convertImageToBitsModel 100 80 384
        ⟨0, 128, false, .Bayer, 1, 1, 100, 100, .none⟩ (fun _ => 0)).bits.length
      = 384 / 8 *
        (convertImageToBitsModel 100 80 384
          ⟨0, 128, false, .Bayer, 1, 1, 100, 100, .none⟩ (fun _ => 0)).height :=
  ⟨by decide, by decide,
    convertImageToBits_bits_length 100 80 384
      ⟨0, 128, false, .Bayer, 1, 1, 100, 100, .none⟩ (fun _ => 0)
      (by decide) (by decide)⟩

/-- C2: the Basic algorithm classifies a pixel black exactly when the sum of
its three channels is strictly below three times the paper-thickness-adjusted
threshold; the bit buffer produced for `algorithm = Basic` is packed from
exactly that predicate at the adjusted threshold; and this differs from
comparing the averaged gray against the raw option threshold. -/
theorem basicGetPixel_sum_vs_triple_adjusted_threshold :
    (∀ (data : ℕ → ℚ) (w x y : ℕ) (opts : ImageConversionOptions),
        basicGetPixel data w (adjustedToneOf opts).adjustedThreshold x y = true
          ↔ data ((y * w + x) * 4) + data ((y * w + x) * 4 + 1) +
              data ((y * w + x) * 4 + 2)
              < 3 * (adjustedToneOf opts).adjustedThreshold)
    ∧ (∀ (imageWidth imageHeight w : ℕ) (opts : ImageConversionOptions)
          (data : ℕ → ℚ),
        (convertImageToBitsModel imageWidth imageHeight w
            { opts with algorithm := .Basic } data).bits
          = packBits w
              (modelOutputHeight imageWidth imageHeight w
                { opts with algorithm := .Basic })
              (basicGetPixel data w (adjustedToneOf opts).adjustedThreshold)
              opts.invert)
    ∧ (∃ (opts : ImageConversionOptions) (data : ℕ → ℚ) (w x y : ℕ),
        basicGetPixel data w (adjustedToneOf opts).adjustedThreshold x y
          ≠ decide (grayAt data w x y < opts.threshold)) := by
  refine ⟨?_, ?_, ?_⟩
  · intro data w x y opts
    rw [basicGetPixel, decide_eq_true_iff,
      mul_comm (adjustedToneOf opts).adjustedThreshold 3]
  · intro imageWidth imageHeight w opts data
    rfl
  · refine ⟨⟨0, 128, false, .Basic, 1, 1, 100, 100, .heavy⟩,
      fun _ => 120, 1, 0, 0, ?_⟩
    norm_num [basicGetPixel, grayAt, adjustedToneOf, adjustForPaperThickness]

/-- C3: the paper-thickness table at `threshold=128, contrast=1, exposure=1`
gives `(115, 0.92, 1.0)` for heavy and `(125, ·, 1.1)` for dedicated; for
every threshold the light `+12` is clamped to at most 255 and the heavy
`-13` and dedicated `-3` to at least 0, while none and medium change
nothing. -/
theorem adjustForPaperThickness_table :
    adjustForPaperThickness 128 1 1 .heavy =
      { adjustedContrast := 1, adjustedExposure := 0.92,
        adjustedThreshold := 115 }
    ∧ (adjustForPaperThickness 128 1 1 .dedicated).adjustedThreshold = 125
    ∧ (adjustForPaperThickness 128 1 1 .dedicated).adjustedContrast = 1.1
    ∧ (∀ threshold contrast exposure : ℚ,
        (adjustForPaperThickness threshold contrast exposure
            .light).adjustedThreshold ≤ 255
        ∧ 0 ≤ (adjustForPaperThickness threshold contrast exposure
            .heavy).adjustedThreshold
        ∧ 0 ≤ (adjustForPaperThickness threshold contrast exposure
            .dedicated).adjustedThreshold
        ∧ adjustForPaperThickness threshold contrast exposure .none =
            { adjustedContrast := contrast, adjustedExposure := exposure,
              adjustedThreshold := threshold }
        ∧ adjustForPaperThickness threshold contrast exposure .medium =
            { adjustedContrast := contrast, adjustedExposure := exposure,
              adjustedThreshold := threshold }) := by
  refine ⟨?_, ?_, ?_, ?_⟩
  · norm_num [adjustForPaperThickness]
  · norm_num [adjustForPaperThickness]
  · norm_num [adjustForPaperThickness]
  · intro threshold contrast exposure
    refine ⟨?_, ?_, ?_, rfl, rfl⟩
    · exact min_le_left _ _
    · exact le_max_left _ _
    · exact le_max_left _ _

/-- C10: `convertImageToBitsInternal` clamps `widthPercentage` into `[1,100]`
but `heightPercentage` only into `[0,100]`; `heightPercentage = 0` is not
rejected, and makes the computed output height
`round(fullOutputHeight * 0 / 100) = 0`. -/
theorem heightPercentage_zero_not_rejected :
    (∀ wp : ℚ, 1 ≤ clampedWidthPercentage wp ∧ clampedWidthPercentage wp ≤ 100)
    ∧ (∀ hp : ℚ, 0 ≤ clampedHeightPercentage hp
        ∧ clampedHeightPercentage hp ≤ 100)
    ∧ clampedWidthPercentage 0 = 1
    ∧ clampedHeightPercentage 0 = 0
    ∧ (∀ foh : ℤ, outputHeightOf foh 0 = 0) := by
  refine ⟨?_, ?_, ?_, ?_, ?_⟩
  · intro wp
    refine ⟨le_max_left _ _, max_le (by norm_num) (min_le_left _ _)⟩
  · intro hp
    refine ⟨le_max_left _ _, max_le (by norm_num) (min_le_left _ _)⟩
  · norm_num [clampedWidthPercentage]
  · norm_num [clampedHeightPercentage]
  · intro foh
    norm_num [outputHeightOf, clampedHeightPercentage, jsRound]

/-! ## Error-diffusion write discipline -/

theorem flat_index_lt (w h x y : ℕ) (hx : x < w) (hy : y < h) :
    y * w + x < w * h := by
  calc y * w + x < y * w + w := by omega
    _ = (y + 1) * w := by ring
    _ ≤ h * w := Nat.mul_le_mul_right w hy
    _ = w * h := Nat.mul_comm h w

theorem atkinsonStep_writes (w h x y : ℕ) (thr : ℚ)
    (g : List ℚ) (hg : g.length = w * h)
    (hx0 : 0 < x) (hx2 : x + 2 < w) (hy2 : y + 2 < h) :
    (atkinsonStep w h thr g x y).getD (y * w + (x + 1)) 0
        = g.getD (y * w + (x + 1)) 0
          + (g.getD (y * w + x) 0
              - (if g.getD (y * w + x) 0 < thr then 0 else 255)) / 8
    ∧ (atkinsonStep w h thr g x y).getD (y * w + (x + 2)) 0
        = g.getD (y * w + (x + 2)) 0
          + (g.getD (y * w + x) 0
              - (if g.getD (y * w + x) 0 < thr then 0 else 255)) / 8
    ∧ (atkinsonStep w h thr g x y).getD ((y + 1) * w + (x - 1)) 0
        = g.getD ((y + 1) * w + (x - 1)) 0
          + (g.getD (y * w + x) 0
              - (if g.getD (y * w + x) 0 < thr then 0 else 255)) / 8
    ∧ (atkinsonStep w h thr g x y).getD ((y + 1) * w + x) 0
        = g.getD ((y + 1) * w + x) 0
          + (g.getD (y * w + x) 0
              - (if g.getD (y * w + x) 0 < thr then 0 else 255)) / 8
    ∧ (atkinsonStep w h thr g x y).getD ((y + 1) * w + (x + 1)) 0
        = g.getD ((y + 1) * w + (x + 1)) 0
          + (g.getD (y * w + x) 0
              - (if g.getD (y * w + x) 0 < thr then 0 else 255)) / 8
    ∧ (atkinsonStep w h thr g x y).getD ((y + 2) * w + x) 0
        = g.getD ((y + 2) * w + x) 0
          + (g.getD (y * w + x) 0
              - (if g.getD (y * w + x) 0 < thr then 0 else 255)) / 8
    ∧ (atkinsonStep w h thr g x y).getD (y * w + x) 0
        = (if g.getD (y * w + x) 0 < thr then (0 : ℚ) else 255)
    ∧ (∀ j, j ≠ y * w + x → j ≠ y * w + (x + 1) → j ≠ y * w + (x + 2) →
        j ≠ (y + 1) * w + (x - 1) → j ≠ (y + 1) * w + x →
        j ≠ (y + 1) * w + (x + 1) → j ≠ (y + 2) * w + x →
        (atkinsonStep w h thr g x y).getD j 0 = g.getD j 0) := by
  have hx1 : x + 1 < w := by omega
  have hy1 : y + 1 < h := by omega
  have hI1 : y * w + (x + 1) = y * w + x + 1 := by omega
  have hI2 : y * w + (x + 2) = y * w + x + 2 := by omega
  have hI3 : (y + 1) * w + (x - 1) = y * w + x + w - 1 := by
    rw [Nat.add_mul, one_mul]; omega
  have hI4 : (y + 1) * w + x = y * w + x + w := by
    rw [Nat.add_mul, one_mul]; omega
  have hI5 : (y + 1) * w + (x + 1) = y * w + x + w + 1 := by
    rw [Nat.add_mul, one_mul]; omega
  have hI6 : (y + 2) * w + x = y * w + x + 2 * w := by
    rw [Nat.add_mul]; omega
  have hb1 : y * w + x + 1 < w * h := by
    have := flat_index_lt w h (x + 1) y hx1 (by omega); omega
  have hb2 : y * w + x + 2 < w * h := by
    have := flat_index_lt w h (x + 2) y hx2 (by omega); omega
  have hb3 : y * w + x + w - 1 < w * h := by
    have := flat_index_lt w h (x - 1) (y + 1) (by omega) (by omega)
    rw [Nat.add_mul, one_mul] at this; omega
  have hb4 : y * w + x + w < w * h := by
    have := flat_index_lt w h x (y + 1) (by omega) (by omega)
    rw [Nat.add_mul, one_mul] at this; omega
  have hb5 : y * w + x + w + 1 < w * h := by
    have := flat_index_lt w h (x + 1) (y + 1) hx1 (by omega)
    rw [Nat.add_mul, one_mul] at this; omega
  have hb6 : y * w + x + 2 * w < w * h := by
    have := flat_index_lt w h x (y + 2) (by omega) hy2
    rw [Nat.add_mul] at this; omega
  have hb0 : y * w + x < w * h := flat_index_lt w h x y (by omega) (by omega)
  simp only [hI1, hI2, hI3, hI4, hI5, hI6, atkinsonStep]
  rw [if_pos hx1, if_pos hx2, if_pos hy1, if_pos hx0, if_pos hx1, if_pos hy2]
  refine ⟨?_, ?_, ?_, ?_, ?_, ?_, ?_, ?_⟩
  · rw [getD_set_ne _ _ _ _ (show y * w + x + 2 * w ≠ y * w + x + 1 by omega),
      getD_set_ne _ _ _ _ (show y * w + x + w + 1 ≠ y * w + x + 1 by omega),
      getD_set_ne _ _ _ _ (show y * w + x + w ≠ y * w + x + 1 by omega),
      getD_set_ne _ _ _ _ (show y * w + x + w - 1 ≠ y * w + x + 1 by omega),
      getD_set_ne _ _ _ _ (show y * w + x + 2 ≠ y * w + x + 1 by omega),
      getD_set_self,
      getD_set_ne _ _ _ _ (show y * w + x ≠ y * w + x + 1 by omega)]
    simp only [List.length_set]; omega
  · rw [getD_set_ne _ _ _ _ (show y * w + x + 2 * w ≠ y * w + x + 2 by omega),
      getD_set_ne _ _ _ _ (show y * w + x + w + 1 ≠ y * w + x + 2 by omega),
      getD_set_ne _ _ _ _ (show y * w + x + w ≠ y * w + x + 2 by omega),
      getD_set_ne _ _ _ _ (show y * w + x + w - 1 ≠ y * w + x + 2 by omega),
      getD_set_self,
      getD_set_ne _ _ _ _ (show y * w + x + 1 ≠ y * w + x + 2 by omega),
      getD_set_ne _ _ _ _ (show y * w + x ≠ y * w + x + 2 by omega)]
    simp only [List.length_set]; omega
  · rw [getD_set_ne _ _ _ _
        (show y * w + x + 2 * w ≠ y * w + x + w - 1 by omega),
      getD_set_ne _ _ _ _ (show y * w + x + w + 1 ≠ y * w + x + w - 1 by omega),
      getD_set_ne _ _ _ _ (show y * w + x + w ≠ y * w + x + w - 1 by omega),
      getD_set_self,
      getD_set_ne _ _ _ _ (show y * w + x + 2 ≠ y * w + x + w - 1 by omega),
      getD_set_ne _ _ _ _ (show y * w + x + 1 ≠ y * w + x + w - 1 by omega),
      getD_set_ne _ _ _ _ (show y * w + x ≠ y * w + x + w - 1 by omega)]
    simp only [List.length_set]; omega
  · rw [getD_set_ne _ _ _ _ (show y * w + x + 2 * w ≠ y * w + x + w by omega),
      getD_set_ne _ _ _ _ (show y * w + x + w + 1 ≠ y * w + x + w by omega),
      getD_set_self,
      getD_set_ne _ _ _ _ (show y * w + x + w - 1 ≠ y * w + x + w by omega),
      getD_set_ne _ _ _ _ (show y * w + x + 2 ≠ y * w + x + w by omega),
      getD_set_ne _ _ _ _ (show y * w + x + 1 ≠ y * w + x + w by omega),
      getD_set_ne _ _ _ _ (show y * w + x ≠ y * w + x + w by omega)]
    simp only [List.length_set]; omega
  · rw [getD_set_ne _ _ _ _
        (show y * w + x + 2 * w ≠ y * w + x + w + 1 by omega),
      getD_set_self,
      getD_set_ne _ _ _ _ (show y * w + x + w ≠ y * w + x + w + 1 by omega),
      getD_set_ne _ _ _ _ (show y * w + x + w - 1 ≠ y * w + x + w + 1 by omega),
      getD_set_ne _ _ _ _ (show y * w + x + 2 ≠ y * w + x + w + 1 by omega),
      getD_set_ne _ _ _ _ (show y * w + x + 1 ≠ y * w + x + w + 1 by omega),
      getD_set_ne _ _ _ _ (show y * w + x ≠ y * w + x + w + 1 by omega)]
    simp only [List.length_set]; omega
  · rw [getD_set_self,
      getD_set_ne _ _ _ _ (show y * w + x + w + 1 ≠ y * w + x + 2 * w by omega),
      getD_set_ne _ _ _ _ (show y * w + x + w ≠ y * w + x + 2 * w by omega),
      getD_set_ne _ _ _ _ (show y * w + x + w - 1 ≠ y * w + x + 2 * w by omega),
      getD_set_ne _ _ _ _ (show y * w + x + 2 ≠ y * w + x + 2 * w by omega),
      getD_set_ne _ _ _ _ (show y * w + x + 1 ≠ y * w + x + 2 * w by omega),
      getD_set_ne _ _ _ _ (show y * w + x ≠ y * w + x + 2 * w by omega)]
    simp only [List.length_set]; omega
  · rw [getD_set_ne _ _ _ _ (show y * w + x + 2 * w ≠ y * w + x by omega),
      getD_set_ne _ _ _ _ (show y * w + x + w + 1 ≠ y * w + x by omega),
      getD_set_ne _ _ _ _ (show y * w + x + w ≠ y * w + x by omega),
      getD_set_ne _ _ _ _ (show y * w + x + w - 1 ≠ y * w + x by omega),
      getD_set_ne _ _ _ _ (show y * w + x + 2 ≠ y * w + x by omega),
      getD_set_ne _ _ _ _ (show y * w + x + 1 ≠ y * w + x by omega),
      getD_set_self]
    omega
  · intro j h0 h1 h2 h3 h4 h5 h6
    rw [getD_set_ne _ _ _ _ (show y * w + x + 2 * w ≠ j by omega),
      getD_set_ne _ _ _ _ (show y * w + x + w + 1 ≠ j by omega),
      getD_set_ne _ _ _ _ (show y * w + x + w ≠ j by omega),
      getD_set_ne _ _ _ _ (show y * w + x + w - 1 ≠ j by omega),
      getD_set_ne _ _ _ _ (show y * w + x + 2 ≠ j by omega),
      getD_set_ne _ _ _ _ (show y * w + x + 1 ≠ j by omega),
      getD_set_ne _ _ _ _ (show y * w + x ≠ j by omega)]

/-- C6: at an interior pixel, the Atkinson step writes exactly `error / 8`
to each of the six neighbors right, two-right, below-left, below,
below-right and two-below, replaces the pixel by its quantized value,
touches no other pixel, and so distributes exactly `6/8` of the
quantization error — the remaining `2/8` is added to no pixel. -/
theorem atkinsonStep_error_distribution (w h x y : ℕ) (thr : ℚ)
    (g : List ℚ) (hg : g.length = w * h)
    (hx0 : 0 < x) (hx2 : x + 2 < w) (hy2 : y + 2 < h) :
    (atkinsonStep w h thr g x y).getD (y * w + (x + 1)) 0
        = g.getD (y * w + (x + 1)) 0
          + (g.getD (y * w + x) 0
              - (if g.getD (y * w + x) 0 < thr then 0 else 255)) / 8
    ∧ (atkinsonStep w h thr g x y).getD (y * w + (x + 2)) 0
        = g.getD (y * w + (x + 2)) 0
          + (g.getD (y * w + x) 0
              - (if g.getD (y * w + x) 0 < thr then 0 else 255)) / 8
    ∧ (atkinsonStep w h thr g x y).getD ((y + 1) * w + (x - 1)) 0
        = g.getD ((y + 1) * w + (x - 1)) 0
          + (g.getD (y * w + x) 0
              - (if g.getD (y * w + x) 0 < thr then 0 else 255)) / 8
    ∧ (atkinsonStep w h thr g x y).getD ((y + 1) * w + x) 0
        = g.getD ((y + 1) * w + x) 0
          + (g.getD (y * w + x) 0
              - (if g.getD (y * w + x) 0 < thr then 0 else 255)) / 8
    ∧ (atkinsonStep w h thr g x y).getD ((y + 1) * w + (x + 1)) 0
        = g.getD ((y + 1) * w + (x + 1)) 0
          + (g.getD (y * w + x) 0
              - (if g.getD (y * w + x) 0 < thr then 0 else 255)) / 8
    ∧ (atkinsonStep w h thr g x y).getD ((y + 2) * w + x) 0
        = g.getD ((y + 2) * w + x) 0
          + (g.getD (y * w + x) 0
              - (if g.getD (y * w + x) 0 < thr then 0 else 255)) / 8
    ∧ (atkinsonStep w h thr g x y).getD (y * w + x) 0
        = (if g.getD (y * w + x) 0 < thr then (0 : ℚ) else 255)
    ∧ (∀ j, j ≠ y * w + x → j ≠ y * w + (x + 1) → j ≠ y * w + (x + 2) →
        j ≠ (y + 1) * w + (x - 1) → j ≠ (y + 1) * w + x →
        j ≠ (y + 1) * w + (x + 1) → j ≠ (y + 2) * w + x →
        (atkinsonStep w h thr g x y).getD j 0 = g.getD j 0)
    ∧ ((atkinsonStep w h thr g x y).getD (y * w + (x + 1)) 0
          - g.getD (y * w + (x + 1)) 0)
        + ((atkinsonStep w h thr g x y).getD (y * w + (x + 2)) 0
          - g.getD (y * w + (x + 2)) 0)
        + ((atkinsonStep w h thr g x y).getD ((y + 1) * w + (x - 1)) 0
          - g.getD ((y + 1) * w + (x - 1)) 0)
        + ((atkinsonStep w h thr g x y).getD ((y + 1) * w + x) 0
          - g.getD ((y + 1) * w + x) 0)
        + ((atkinsonStep w h thr g x y).getD ((y + 1) * w + (x + 1)) 0
          - g.getD ((y + 1) * w + (x + 1)) 0)
        + ((atkinsonStep w h thr g x y).getD ((y + 2) * w + x) 0
          - g.getD ((y + 2) * w + x) 0)
        = 6 / 8 * (g.getD (y * w + x) 0
            - (if g.getD (y * w + x) 0 < thr then 0 else 255)) := by
  obtain ⟨a1, a2, a3, a4, a5, a6, a7, a8⟩ :=
    atkinsonStep_writes w h x y thr g hg hx0 hx2 hy2
  refine ⟨a1, a2, a3, a4, a5, a6, a7, a8, ?_⟩
  rw [a1, a2, a3, a4, a5, a6]
  ring

/-- Witness for C6 at a concrete interior pixel of a 4×3 image. -/
theorem atkinsonStep_error_distribution_witness :
    (List.replicate 12 (0 : ℚ)).length = 4 * 3 ∧ 0 < 1 ∧ 1 + 2 < 4 ∧
    0 + 2 < 3 ∧
    ((atkinsonStep 4 3 128 (List.replicate 12 (0 : ℚ)) 1 0).getD
        (0 * 4 + (1 + 1)) 0
      = (List.replicate 12 (0 : ℚ)).getD (0 * 4 + (1 + 1)) 0
        + ((List.replicate 12 (0 : ℚ)).getD (0 * 4 + 1) 0
            - (if (List.replicate 12 (0 : ℚ)).getD (0 * 4 + 1) 0 < 128
               then 0 else 255)) / 8) :=
  ⟨by simp, by decide, by decide, by decide,
    (atkinsonStep_error_distribution 4 3 1 0 128 (List.replicate 12 (0 : ℚ))
      (by simp) (by decide) (by decide) (by decide)).1⟩

/-- Intended diffusion targets (as pixel coordinates, the processed pixel
included) of each error-diffusion algorithm, read off the weight stencils in
the Dither, Atkinson and SierraLite branches. -/
def diffusionNeighborhood (alg : Algorithm) (x y : ℕ) : List (ℕ × ℕ) :=
  match alg with
  | .Dither =>
      [(x, y), (x + 1, y), (x - 1, y + 1), (x, y + 1), (x + 1, y + 1)]
  | .Atkinson =>
      [(x, y), (x + 1, y), (x + 2, y), (x - 1, y + 1), (x, y + 1),
        (x + 1, y + 1), (x, y + 2)]
  | .SierraLite =>
      [(x, y), (x + 1, y), (x - 1, y + 1), (x, y + 1)]
  | _ => [(x, y)]

/-- C7: a diffusion step of Dither, Atkinson or SierraLite never writes
outside the `w × h` grayscale grid: any buffer position that is not an
in-bounds intended neighbor of the processed pixel (in particular any
position past the end of the buffer, and any position a wrapped-around
column would alias to) is left unchanged. -/
theorem diffusionStep_writes_stay_in_bounds (alg : Algorithm)
    (w h x y : ℕ) (thr : ℚ) (g : List ℚ) (hx : x < w) (hy : y < h) (j : ℕ)
    (hj : ∀ p ∈ diffusionNeighborhood alg x y,
      ¬(p.1 < w ∧ p.2 < h ∧ j = p.2 * w + p.1)) :
    (diffusionStep alg w h thr g x y).getD j 0 = g.getD j 0 := by
  have j0 : y * w + x ≠ j := by
    intro he
    refine hj (x, y) (by cases alg <;> simp [diffusionNeighborhood])
      ⟨hx, hy, ?_⟩
    show j = y * w + x
    omega
  cases alg with
  | Basic => rfl
  | Bayer => rfl
  | Dither =>
    have j1 : x + 1 < w → y * w + x + 1 ≠ j := by
      intro h1 he
      refine hj (x + 1, y) (by simp [diffusionNeighborhood]) ⟨h1, hy, ?_⟩
      show j = y * w + (x + 1)
      omega
    have j2 : 0 < x → y + 1 < h → y * w + x + w - 1 ≠ j := by
      intro h0 h1 he
      refine hj (x - 1, y + 1) (by simp [diffusionNeighborhood])
        ⟨by omega, h1, ?_⟩
      show j = (y + 1) * w + (x - 1)
      rw [Nat.add_mul, one_mul]; omega
    have j3 : y + 1 < h → y * w + x + w ≠ j := by
      intro h1 he
      refine hj (x, y + 1) (by simp [diffusionNeighborhood]) ⟨hx, h1, ?_⟩
      show j = (y + 1) * w + x
      rw [Nat.add_mul, one_mul]; omega
    have j4 : x + 1 < w → y + 1 < h → y * w + x + w + 1 ≠ j := by
      intro h1 h2 he
      refine hj (x + 1, y + 1) (by simp [diffusionNeighborhood])
        ⟨h1, h2, ?_⟩
      show j = (y + 1) * w + (x + 1)
      rw [Nat.add_mul, one_mul]; omega
    simp only [diffusionStep, ditherStep]
    by_cases hy1 : y + 1 < h <;> by_cases hx1 : x + 1 < w <;>
      by_cases hx0p : 0 < x <;>
      simp only [hy1, hx1, hx0p, if_true, if_false] <;>
      (repeat first
        | rw [getD_set_ne _ _ _ _ (j4 (by assumption) (by assumption))]
        | rw [getD_set_ne _ _ _ _ (j3 (by assumption))]
        | rw [getD_set_ne _ _ _ _ (j2 (by assumption) (by assumption))]
        | rw [getD_set_ne _ _ _ _ (j1 (by assumption))]
        | rw [getD_set_ne _ _ _ _ j0])
  | Atkinson =>
    have j1 : x + 1 < w → y * w + x + 1 ≠ j := by
      intro h1 he
      refine hj (x + 1, y) (by simp [diffusionNeighborhood]) ⟨h1, hy, ?_⟩
      show j = y * w + (x + 1)
      omega
    have j5 : x + 2 < w → y * w + x + 2 ≠ j := by
      intro h1 he
      refine hj (x + 2, y) (by simp [diffusionNeighborhood]) ⟨h1, hy, ?_⟩
      show j = y * w + (x + 2)
      omega
    have j2 : 0 < x → y + 1 < h → y * w + x + w - 1 ≠ j := by
      intro h0 h1 he
      refine hj (x - 1, y + 1) (by simp [diffusionNeighborhood])
        ⟨by omega, h1, ?_⟩
      show j = (y + 1) * w + (x - 1)
      rw [Nat.add_mul, one_mul]; omega
    have j3 : y + 1 < h → y * w + x + w ≠ j := by
      intro h1 he
      refine hj (x, y + 1) (by simp [diffusionNeighborhood]) ⟨hx, h1, ?_⟩
      show j = (y + 1) * w + x
      rw [Nat.add_mul, one_mul]; omega
    have j4 : x + 1 < w → y + 1 < h → y * w + x + w + 1 ≠ j := by
      intro h1 h2 he
      refine hj (x + 1, y + 1) (by simp [diffusionNeighborhood])
        ⟨h1, h2, ?_⟩
      show j = (y + 1) * w + (x + 1)
      rw [Nat.add_mul, one_mul]; omega
    have j6 : y + 2 < h → y * w + x + 2 * w ≠ j := by
      intro h2 he
      refine hj (x, y + 2) (by simp [diffusionNeighborhood]) ⟨hx, h2, ?_⟩
      show j = (y + 2) * w + x
      rw [Nat.add_mul]; omega
    simp only [diffusionStep, atkinsonStep]
    by_cases hy1 : y + 1 < h <;> by_cases hy2 : y + 2 < h <;>
      by_cases hx1 : x + 1 < w <;> by_cases hx2 : x + 2 < w <;>
      by_cases hx0p : 0 < x <;>
      simp only [hy1, hy2, hx1, hx2, hx0p, if_true, if_false] <;>
      (repeat first
        | rw [getD_set_ne _ _ _ _ (j6 (by assumption))]
        | rw [getD_set_ne _ _ _ _ (j4 (by assumption) (by assumption))]
        | rw [getD_set_ne _ _ _ _ (j3 (by assumption))]
        | rw [getD_set_ne _ _ _ _ (j2 (by assumption) (by assumption))]
        | rw [getD_set_ne _ _ _ _ (j5 (by assumption))]
        | rw [getD_set_ne _ _ _ _ (j1 (by assumption))]
        | rw [getD_set_ne _ _ _ _ j0])
  | SierraLite =>
    have j1 : x + 1 < w → y * w + x + 1 ≠ j := by
      intro h1 he
      refine hj (x + 1, y) (by simp [diffusionNeighborhood]) ⟨h1, hy, ?_⟩
      show j = y * w + (x + 1)
      omega
    have j2 : 0 < x → y + 1 < h → y * w + x + w - 1 ≠ j := by
      intro h0 h1 he
      refine hj (x - 1, y + 1) (by simp [diffusionNeighborhood])
        ⟨by omega, h1, ?_⟩
      show j = (y + 1) * w + (x - 1)
      rw [Nat.add_mul, one_mul]; omega
    have j3 : y + 1 < h → y * w + x + w ≠ j := by
      intro h1 he
      refine hj (x, y + 1) (by simp [diffusionNeighborhood]) ⟨hx, h1, ?_⟩
      show j = (y + 1) * w + x
      rw [Nat.add_mul, one_mul]; omega
    simp only [diffusionStep, sierraLiteStep]
    by_cases hy1 : y + 1 < h <;> by_cases hx1 : x + 1 < w <;>
      by_cases hx0p : 0 < x <;>
      simp only [hy1, hx1, hx0p, if_true, if_false] <;>
      (repeat first
        | rw [getD_set_ne _ _ _ _ (j3 (by assumption))]
        | rw [getD_set_ne _ _ _ _ (j2 (by assumption) (by assumption))]
        | rw [getD_set_ne _ _ _ _ (j1 (by assumption))]
        | rw [getD_set_ne _ _ _ _ j0])

/-- Witness for C7: the bottom-right pixel of a 2×2 image; position 4 (the
first index past the end of the buffer) is untouched. -/
theorem diffusionStep_writes_stay_in_bounds_witness :
    (1 < 2) ∧ (1 < 2) ∧
    (∀ p ∈ diffusionNeighborhood .Dither 1 1,
      ¬(p.1 < 2 ∧ p.2 < 2 ∧ 4 = p.2 * 2 + p.1)) ∧
    (diffusionStep .Dither 2 2 128 [1, 2, 3, 4] 1 1).getD 4 0
      = ([1, 2, 3, 4] : List ℚ).getD 4 0 :=
  ⟨by decide, by decide, by decide,
    diffusionStep_writes_stay_in_bounds .Dither 2 2 1 1 128 [1, 2, 3, 4]
      (by decide) (by decide) 4 (by decide)⟩

/-! ## Text layout (`src/logic/textprinter.ts`)

The canvas text-measurement capability (`ctx.measureText` under the font the
block style selects) is abstracted as `measure : TextBlockStyle → String → ℚ`;
the draw capability (`fillText`, underline strokes) only paints onto the
white-filled canvas, so the rendered raster is modelled as its dimensions
plus the ordered list of block draw operations applied to the white
background. -/

structure TextBlockStyle where
  fontFamily : String
  fontSize : ℚ
  bold : Bool
  italic : Bool
  underline : Bool

structure TextBlock where
  id : String
  content : String
  style : TextBlockStyle
  order : ℤ

structure TextDocument where
  blocks : List TextBlock
  paperWidth : ℚ

/-- `wrapText` (textprinter.ts lines 52–87): split on explicit line breaks;
a blank paragraph contributes one empty line; otherwise greedy word wrap
against the measured width. -/
def wrapText (measure : String → ℚ) (text : String) (maxWidth : ℚ) :
    List String :=
  (text.splitOn "\n").foldl
    (fun lines paragraph =>
      if paragraph.trim = "" then lines ++ [""]
      else
        let words := paragraph.splitOn " "
        let wrapped := words.foldl
          (fun (acc : List String × String) word =>
            let currentLine := acc.2
            let testLine :=
              currentLine ++ (if currentLine = "" then "" else " ") ++ word
            if maxWidth < measure testLine ∧ currentLine ≠ "" then
              (acc.1 ++ [currentLine], word)
            else (acc.1, testLine))
          (lines, "")
        if wrapped.2 ≠ "" then wrapped.1 ++ [wrapped.2] else wrapped.1)
    []

/-- `measureTextBlockHeight` (lines 92–107):
`wrappedLineCount * (fontSize * 1.2)`. -/
def measureTextBlockHeight (measure : TextBlockStyle → String → ℚ)
    (block : TextBlock) (maxWidth : ℚ) : ℚ :=
  ((wrapText (measure block.style) block.content maxWidth).length : ℚ)
    * (block.style.fontSize * 1.2)

/-- Stable insertion into a list sorted ascending by `order` (ties keep the
earlier-inserted block first), modelling
`[...blocks].sort((a, b) => a.order - b.order)`. -/
def insertBlockByOrder (b : TextBlock) : List TextBlock → List TextBlock
  | [] => [b]
  | c :: cs =>
      if c.order < b.order then c :: insertBlockByOrder b cs else b :: c :: cs

/-- Stable sort of the blocks by `order` (textprinter.ts line 186). -/
def sortBlocksByOrder : List TextBlock → List TextBlock
  | [] => []
  | b :: bs => insertBlockByOrder b (sortBlocksByOrder bs)

/-- `drawTextBlock` (lines 113–156), reduced to its layout effect: the y
position after drawing the block's wrapped lines (the painting itself is the
external draw capability). -/
def drawTextBlock (measure : TextBlockStyle → String → ℚ)
    (block : TextBlock) (y : ℚ) (maxWidth padding : ℚ) : ℚ :=
  y + ((wrapText (measure block.style) block.content
        (maxWidth - padding * 2)).length : ℚ)
      * (block.style.fontSize * 1.2)

/-- A rendered text raster: a white canvas of the given dimensions with the
recorded block draw operations applied in order. -/
structure RenderedRaster where
  width : ℚ
  height : ℚ
  drawnBlocks : List (TextBlock × ℚ)

/-- `renderTextDocument` (textprinter.ts lines 170–217), up to the hand-off
to `convertImageToBits`: measurement pass accumulating the total height
(top/bottom padding 10 each, 10px spacing after each block, floor 50), then
the draw pass over the white canvas. -/
def renderTextDocument (measure : TextBlockStyle → String → ℚ)
    (document : TextDocument) : RenderedRaster :=
  let padding : ℚ := 10
  let maxWidth := document.paperWidth - padding * 2
  let sortedBlocks := sortBlocksByOrder document.blocks
  let measuredHeight := sortedBlocks.foldl
    (fun totalHeight block =>
      totalHeight + (measureTextBlockHeight measure block maxWidth + 10))
    (padding * 2)
  let totalHeight := if measuredHeight < 50 then 50 else measuredHeight
  let drawn := (sortedBlocks.foldl
    (fun (acc : List (TextBlock × ℚ) × ℚ) block =>
      let afterY := drawTextBlock measure block acc.2 document.paperWidth
        padding
      (acc.1 ++ [(block, acc.2)], afterY + 10))
    ([], padding)).1
  { width := document.paperWidth, height := totalHeight,
    drawnBlocks := drawn }

theorem insertBlockByOrder_perm (b : TextBlock) (l : List TextBlock) :
    (insertBlockByOrder b l).Perm (b :: l) := by
  induction l with
  | nil => exact List.Perm.refl _
  | cons c cs ih =>
    rw [insertBlockByOrder]
    split
    · exact ((ih.cons c).trans (List.Perm.swap b c cs)).symm.symm
    · exact List.Perm.refl _

theorem sortBlocksByOrder_perm (l : List TextBlock) :
    (sortBlocksByOrder l).Perm l := by
  induction l with
  | nil => exact List.Perm.refl _
  | cons b bs ih =>
    exact (insertBlockByOrder_perm b (sortBlocksByOrder bs)).trans (ih.cons b)

theorem foldl_add_eq_sum (f : TextBlock → ℚ) (l : List TextBlock) (a : ℚ) :
    l.foldl (fun th b => th + f b) a = a + (l.map f).sum := by
  induction l generalizing a with
  | nil => simp
  | cons b bs ih => simp [ih, add_assoc]

/-- C8: the rendered raster's total height is the sum over blocks of
`wrappedLineCount * (fontSize * 1.2)` plus 10px spacing per block and 10px
top and bottom padding, floored at 50px; a document with zero blocks gives a
blank (nothing drawn on the white background) raster of exactly the 50px
minimum height, never a zero- or negative-height raster. -/
theorem renderTextDocument_total_height :
    (∀ (measure : TextBlockStyle → String → ℚ) (document : TextDocument),
      (renderTextDocument measure document).height
        = max 50 (10 + 10 +
            (document.blocks.map (fun b =>
              ((wrapText (measure b.style) b.content
                  (document.paperWidth - 10 * 2)).length : ℚ)
                * (b.style.fontSize * 1.2) + 10)).sum))
    ∧ (∀ (measure : TextBlockStyle → String → ℚ) (paperWidth : ℚ),
        (renderTextDocument measure ⟨[], paperWidth⟩).height = 50
        ∧ (renderTextDocument measure ⟨[], paperWidth⟩).drawnBlocks = []
        ∧ (0 : ℚ) < (renderTextDocument measure ⟨[], paperWidth⟩).height) := by
  constructor
  · intro measure document
    show (if _ < 50 then (50 : ℚ) else _) = _
    rw [foldl_add_eq_sum
      (fun b => measureTextBlockHeight measure b (document.paperWidth - 10 * 2)
          + 10)]
    rw [((sortBlocksByOrder_perm document.blocks).map _).sum_eq]
    have hsum : (document.blocks.map (fun b =>
        measureTextBlockHeight measure b (document.paperWidth - 10 * 2)
          + 10)).sum
      = (document.blocks.map (fun b =>
          ((wrapText (measure b.style) b.content
              (document.paperWidth - 10 * 2)).length : ℚ)
            * (b.style.fontSize * 1.2) + 10)).sum := by
      rfl
    rw [hsum]
    by_cases h50 :
        (10 : ℚ) * 2 + (document.blocks.map (fun b =>
          ((wrapText (measure b.style) b.content
              (document.paperWidth - 10 * 2)).length : ℚ)
            * (b.style.fontSize * 1.2) + 10)).sum < 50
    · rw [if_pos h50, max_eq_left (by linarith)]
    · rw [if_neg h50, max_eq_right (by linarith)]
      ring
  · intro measure paperWidth
    refine ⟨?_, rfl, ?_⟩
    · show (if (10 : ℚ) * 2 < 50 then (50 : ℚ) else 10 * 2) = 50
      norm_num
    · show (0 : ℚ) < (if (10 : ℚ) * 2 < 50 then (50 : ℚ) else 10 * 2)
      norm_num

/-! ## Resize-dimension validation (`resizeWithOpenCV`, lines 61–107)

`resizeWithOpenCV` validates its target dimensions with
`if (!targetWidth || !targetHeight || isNaN(targetWidth) || isNaN(targetHeight)) throw`
before building the OpenCV inputs.  JS numbers are modelled with their
special values, since falsiness and `isNaN` distinguish them. -/

inductive JSNumber
  | num (q : ℚ)
  | nan
  | inf
  | negInf
deriving DecidableEq

/-- JS truthiness of a number: `0`, `-0` and `NaN` are falsy, everything
else (including negative and infinite values) is truthy. -/
def jsTruthy : JSNumber → Bool
  | .num q => decide (q ≠ 0)
  | .nan => false
  | .inf => true
  | .negInf => true

/-- JS `isNaN` on a number. -/
def jsIsNaN : JSNumber → Bool
  | .nan => true
  | _ => false

/-- The validation test of `resizeWithOpenCV` (line 71): the dimensions are
rejected (an `Error` is thrown before any OpenCV call) exactly when this is
`true`. -/
def resizeDimensionsRejected (targetWidth targetHeight : JSNumber) : Bool :=
  !jsTruthy targetWidth || !jsTruthy targetHeight ||
    jsIsNaN targetWidth || jsIsNaN targetHeight

/-- A dimension that is invalid according to the specification's words:
zero, negative, or non-finite. -/
def specInvalidDimension : JSNumber → Prop
  | .num q => q ≤ 0
  | .nan => True
  | .inf => True
  | .negInf => True

/-- Counterexample to C9: a negative target width (−5) is invalid per the
specification, yet the validation of `resizeWithOpenCV` does not reject
`(-5) × 10` — a negative number is truthy and not NaN, so the call proceeds
to the external resample. -/
theorem resizeValidation_misses_negative :
    specInvalidDimension (.num (-5))
    ∧ resizeDimensionsRejected (.num (-5)) (.num 10) = false := by
  constructor
  · show (-5 : ℚ) ≤ 0
    norm_num
  · rfl

/-- C9 (amended): the explicit validation of `resizeWithOpenCV` rejects a
dimension pair exactly when a dimension is zero or NaN; negative and
infinite dimensions pass the validation. -/
theorem resizeValidation_rejects_zero_and_nan :
    ∀ targetWidth targetHeight : JSNumber,
      resizeDimensionsRejected targetWidth targetHeight = true
        ↔ (targetWidth = .num 0 ∨ targetWidth = .nan
            ∨ targetHeight = .num 0 ∨ targetHeight = .nan) := by
  intro targetWidth targetHeight
  cases targetWidth <;> cases targetHeight <;>
    simp [resizeDimensionsRejected, jsTruthy, jsIsNaN]

/-! ## In-flight cancellation (`convertImageInternal`, imageconverter.ts
lines 16–33)

`convertImageInternal` aborts the store's current `AbortController`, makes
itself the current controller, awaits the worker, and then delivers its
result only if its own controller was never aborted
(`localController.signal.throwIfAborted()`), i.e. only if no later
conversion started meanwhile.  The model numbers conversions in start
order; `activeId` is the conversion owning the store's current (unaborted)
controller. -/

structure ConverterState where
  nextId : ℕ
  activeId : Option ℕ
  inFlight : List ℕ
  delivered : List ℕ
  discarded : List ℕ

inductive ConvEvent
  | start
  | finish (i : ℕ)

/-- One scheduler-visible event: a `start` runs the prologue of
`convertImageInternal` (abort the previous controller, install a fresh
one); a `finish i` runs its epilogue for conversion `i` (deliver the result
if `throwIfAborted` passes, otherwise the result is discarded). -/
def convStep (s : ConverterState) : ConvEvent → ConverterState
  | .start =>
      { s with nextId := s.nextId + 1, activeId := some s.nextId,
               inFlight := s.inFlight ++ [s.nextId] }
  | .finish i =>
      if i ∈ s.inFlight then
        if s.activeId = some i then
          { s with inFlight := s.inFlight.erase i,
                   delivered := s.delivered ++ [i] }
        else
          { s with inFlight := s.inFlight.erase i,
                   discarded := s.discarded ++ [i] }
      else s

def convInit : ConverterState := ⟨0, none, [], [], []⟩

def convRun (es : List ConvEvent) : ConverterState :=
  es.foldl convStep convInit

/-- A conversion that is in flight and can still deliver its result: it owns
the store's current controller, which has not been aborted. -/
def Deliverable (s : ConverterState) (i : ℕ) : Prop :=
  i ∈ s.inFlight ∧ s.activeId = some i

/-- Invariants of the converter store's reachable states: conversion ids are
distinct, bounded by the id counter, and an in-flight conversion has not
been delivered. -/
def ConverterInv (s : ConverterState) : Prop :=
  s.inFlight.Nodup
  ∧ (∀ i ∈ s.inFlight, i < s.nextId)
  ∧ (∀ i ∈ s.delivered, i < s.nextId)
  ∧ (∀ i ∈ s.inFlight, i ∉ s.delivered)

theorem convStep_inv (s : ConverterState) (e : ConvEvent)
    (h : ConverterInv s) : ConverterInv (convStep s e) := by
  obtain ⟨hn, hf, hd, hdisj⟩ := h
  cases e with
  | start =>
    refine ⟨?_, ?_, ?_, ?_⟩
    · show (s.inFlight ++ [s.nextId]).Nodup
      rw [List.nodup_append]
      refine ⟨hn, List.nodup_singleton _, ?_⟩
      intro i hi hmem
      rw [List.mem_singleton] at hmem
      subst hmem
      exact absurd (hf _ hi) (by omega)
    · show ∀ i ∈ s.inFlight ++ [s.nextId], i < s.nextId + 1
      intro i hi
      rcases List.mem_append.1 hi with hi | hi
      · exact Nat.lt_succ_of_lt (hf i hi)
      · rw [List.mem_singleton] at hi; omega
    · show ∀ i ∈ s.delivered, i < s.nextId + 1
      intro i hi
      exact Nat.lt_succ_of_lt (hd i hi)
    · show ∀ i ∈ s.inFlight ++ [s.nextId], i ∉ s.delivered
      intro i hi
      rcases List.mem_append.1 hi with hi | hi
      · exact hdisj i hi
      · rw [List.mem_singleton] at hi
        subst hi
        exact fun hmem => absurd (hd _ hmem) (by omega)
  | finish j =>
    simp only [convStep]
    split
    · split
      · refine ⟨hn.erase j, fun i hi => hf i (List.mem_of_mem_erase hi),
          ?_, ?_⟩
        · intro i hi
          rcases List.mem_append.1 hi with hi | hi
          · exact hd i hi
          · simp at hi; subst hi; exact hf i (by assumption)
        · intro i hi hmem
          rcases List.mem_append.1 hmem with hmem | hmem
          · exact hdisj i (List.mem_of_mem_erase hi) hmem
          · simp at hmem; subst hmem
            exact ((hn.mem_erase_iff).1 hi).1 rfl
      · exact ⟨hn.erase j, fun i hi => hf i (List.mem_of_mem_erase hi), hd,
          fun i hi => hdisj i (List.mem_of_mem_erase hi)⟩
    · exact ⟨hn, hf, hd, hdisj⟩

theorem convRun_inv (es : List ConvEvent) : ConverterInv (convRun es) := by
  rw [convRun]
  have h0 : ConverterInv convInit :=
    ⟨List.nodup_nil, by simp [convInit], by simp [convInit],
      by simp [convInit]⟩
  generalize convInit = s at h0 ⊢
  induction es generalizing s with
  | nil => exact h0
  | cons e es ih => exact ih _ (convStep_inv s e h0)

/-- A conversion that has lost the current controller (its abort signal was
triggered) and has not been delivered: it can never be delivered later. -/
def Dead (s : ConverterState) (i : ℕ) : Prop :=
  i ∉ s.delivered ∧ s.activeId ≠ some i ∧ i < s.nextId

theorem convStep_dead (s : ConverterState) (e : ConvEvent) (i : ℕ)
    (h : Dead s i) : Dead (convStep s e) i := by
  obtain ⟨hnd, hna, hlt⟩ := h
  cases e with
  | start =>
    refine ⟨hnd, fun hc => ?_, Nat.lt_succ_of_lt hlt⟩
    rw [show (convStep s .start).activeId = some s.nextId from rfl] at hc
    exact absurd (Option.some.inj hc) (by omega)
  | finish j =>
    simp only [convStep]
    split
    · split
      · refine ⟨?_, hna, hlt⟩
        intro hi
        rcases List.mem_append.1 hi with hi | hi
        · exact hnd hi
        · simp at hi
          subst hi
          exact hna (by assumption)
      · exact ⟨hnd, hna, hlt⟩
    · exact ⟨hnd, hna, hlt⟩

theorem convRun_dead (s : ConverterState) (es : List ConvEvent) (i : ℕ)
    (h : Dead s i) : Dead (es.foldl convStep s) i := by
  induction es generalizing s with
  | nil => exact h
  | cons e es ih => exact ih _ (convStep_dead s e i h)

/-- C5: at most one in-flight conversion can still deliver its result (at
most one owns the unaborted current controller), and a conversion that was
in flight when a later conversion started is cancelled by that start: its
result is never delivered, whatever happens afterwards. -/
theorem convertImageInternal_cancels_in_flight :
    (∀ (es : List ConvEvent) (i j : ℕ),
      Deliverable (convRun es) i → Deliverable (convRun es) j → i = j)
    ∧ (∀ (es₁ es₂ : List ConvEvent) (i : ℕ),
        i ∈ (convRun es₁).inFlight →
        i ∉ (convRun (es₁ ++ ConvEvent.start :: es₂)).delivered) := by
  constructor
  · intro es i j ⟨_, hi⟩ ⟨_, hj⟩
    rw [hi] at hj
    injection hj
  · intro es₁ es₂ i hin
    obtain ⟨hn, hf, hd, hdisj⟩ := convRun_inv es₁
    have hlt : i < (convRun es₁).nextId := hf i hin
    have hdead : Dead (convStep (convRun es₁) .start) i := by
      refine ⟨hdisj i hin, fun hc => ?_, Nat.lt_succ_of_lt hlt⟩
      rw [show (convStep (convRun es₁) .start).activeId
          = some (convRun es₁).nextId from rfl] at hc
      exact absurd (Option.some.inj hc) (by omega)
    have hfinal := convRun_dead _ es₂ i hdead
    have heq : convRun (es₁ ++ ConvEvent.start :: es₂)
        = es₂.foldl convStep (convStep (convRun es₁) .start) := by
      rw [convRun, List.foldl_append, List.foldl_cons]
      rfl
    rw [heq]
    exact hfinal.1

/-- Witness for C5: with two starts and then the first conversion
finishing, conversion 0 (in flight when the second start arrived) is not
delivered. -/
theorem convertImageInternal_cancels_in_flight_witness :
    (0 ∈ (convRun [ConvEvent.start]).inFlight)
    ∧ 0 ∉ (convRun ([ConvEvent.start] ++ ConvEvent.start ::
        [ConvEvent.finish 0])).delivered :=
  ⟨by decide,
    convertImageInternal_cancels_in_flight.2 [ConvEvent.start]
      [ConvEvent.finish 0] 0 (by decide)⟩

/-! ## Request throttling (`convertImage`, imageconverter.ts lines 35–76)

The store keeps one mutable pending-request slot and one throttle timer.
The model processes timestamped requests in arrival order; a timer whose
deadline has passed fires before the next request is handled, and a final
flush fires a still-armed timer.  Conversions are modelled as completing
instantly when started (`lastConversionTime` is set to the completion
time), which is the regime of the specification's burst scenario; `α` is
the opaque payload of a request (image, output width and options). -/

/-- `const minInterval = 100` (line 38). -/
def minInterval : ℤ := 100

structure ThrottleState (α : Type) where
  lastConversionTime : ℤ
  pendingConversion : Option α
  throttleTimeout : Option ℤ

structure ThrottleLog (α : Type) where
  completed : List (ℤ × α)
  rejectedSuperseded : List α

/-- `convertImage` (lines 35–76): reject a pending request with the
superseded error, store the new request, and either run it immediately
(when at least `minInterval` has elapsed since the last completed
conversion) or (re)arm the timer for `lastConversionTime + minInterval`. -/
def convertImage {α : Type} (s : ThrottleState α) (log : ThrottleLog α)
    (now : ℤ) (req : α) : ThrottleState α × ThrottleLog α :=
  let log :=
    match s.pendingConversion with
    | some p =>
        { log with rejectedSuperseded := log.rejectedSuperseded ++ [p] }
    | none => log
  if now - s.lastConversionTime ≥ minInterval then
    ({ lastConversionTime := now, pendingConversion := none,
       throttleTimeout := none },
     { log with completed := log.completed ++ [(now, req)] })
  else
    ({ s with pendingConversion := some req,
              throttleTimeout := some (s.lastConversionTime + minInterval) },
     log)

/-- The `setTimeout` callback (lines 64–73): when the timer fires with a
pending request, run it (completing at the fire time). -/
def fireThrottleTimeout {α : Type} (s : ThrottleState α)
    (log : ThrottleLog α) : ThrottleState α × ThrottleLog α :=
  match s.throttleTimeout with
  | some t =>
      match s.pendingConversion with
      | some p =>
          (⟨t, none, none⟩,
           { log with completed := log.completed ++ [(t, p)] })
      | none => ({ s with throttleTimeout := none }, log)
  | none => (s, log)

/-- Drive the scheduler over timestamped requests, firing an expired timer
before each arrival. -/
def runScheduler {α : Type} :
    ThrottleState α → ThrottleLog α → List (ℤ × α) →
      ThrottleState α × ThrottleLog α
  | s, log, [] => (s, log)
  | s, log, (now, req) :: rest =>
      let fired :=
        match s.throttleTimeout with
        | some t => if t ≤ now then fireThrottleTimeout s log else (s, log)
        | none => (s, log)
      let handled := convertImage fired.1 fired.2 now req
      runScheduler handled.1 handled.2 rest

/-- Run the scheduler and let a still-armed trailing timer fire. -/
def runSchedulerAndFlush {α : Type} (s : ThrottleState α)
    (log : ThrottleLog α) (reqs : List (ℤ × α)) :
    ThrottleState α × ThrottleLog α :=
  let result := runScheduler s log reqs
  fireThrottleTimeout result.1 result.2

theorem runScheduler_burst {α : Type} (L : ℤ) (c : List (ℤ × α))
    (p : α) (r : List α) (reqs : List (ℤ × α))
    (hall : ∀ q ∈ reqs, q.1 < L + minInterval) :
    runScheduler ⟨L, some p, some (L + minInterval)⟩ ⟨c, r⟩ reqs
      = (⟨L, some ((p :: reqs.map Prod.snd).getLast (by simp)),
           some (L + minInterval)⟩,
         ⟨c, r ++ (p :: reqs.map Prod.snd).dropLast⟩) := by
  induction reqs generalizing p r with
  | nil => simp [runScheduler]
  | cons tq rest ih =>
    obtain ⟨t, q⟩ := tq
    have ht : t < L + minInterval := hall (t, q) (List.mem_cons_self _ _)
    have hrest : ∀ x ∈ rest, x.1 < L + minInterval :=
      fun x hx => hall x (List.mem_cons_of_mem _ hx)
    rw [runScheduler]
    simp only [convertImage]
    rw [if_neg (show ¬(L + minInterval ≤ t) by omega),
      if_neg (show ¬(t - L ≥ minInterval) by omega)]
    rw [ih q (r ++ [p]) hrest]
    simp [List.append_assoc]

/-- C4: a burst of requests all arriving within one throttle window (before
`lastConversionTime + minInterval`, starting from an idle scheduler) leads
to exactly one executed conversion — the most recently submitted request,
run when the timer fires at `lastConversionTime + minInterval` — while
every earlier queued request is rejected as superseded; in particular 10
requests in 50ms starting from an idle scheduler complete at most 2
conversions, the last completed conversion carrying the options of the last
submitted request, with requests 2–9 rejected as superseded. -/
theorem convertImage_coalesces_bursts :
    (∀ (α : Type) (L : ℤ) (c : List (ℤ × α)) (r : List α)
        (t₁ : ℤ) (q₁ : α) (rest : List (ℤ × α)),
      t₁ < L + minInterval →
      (∀ x ∈ rest, x.1 < L + minInterval) →
      runSchedulerAndFlush ⟨L, none, none⟩ ⟨c, r⟩ ((t₁, q₁) :: rest)
        = (⟨L + minInterval, none, none⟩,
           ⟨c ++ [(L + minInterval,
                    (q₁ :: rest.map Prod.snd).getLast (by simp))],
            r ++ (q₁ :: rest.map Prod.snd).dropLast⟩))
    ∧ (∀ (α : Type) (o₁ o₂ o₃ o₄ o₅ o₆ o₇ o₈ o₉ o₁₀ : α),
        (runSchedulerAndFlush (⟨0, none, none⟩ : ThrottleState α) ⟨[], []⟩
            [(1000, o₁), (1005, o₂), (1010, o₃), (1015, o₄), (1020, o₅),
             (1025, o₆), (1030, o₇), (1035, o₈), (1040, o₉),
             (1045, o₁₀)]).2
          = ⟨[(1000, o₁), (1100, o₁₀)],
             [o₂, o₃, o₄, o₅, o₆, o₇, o₈, o₉]⟩
        ∧ (runSchedulerAndFlush (⟨0, none, none⟩ : ThrottleState α) ⟨[], []⟩
            [(1000, o₁), (1005, o₂), (1010, o₃), (1015, o₄), (1020, o₅),
             (1025, o₆), (1030, o₇), (1035, o₈), (1040, o₉),
             (1045, o₁₀)]).2.completed.length ≤ 2) := by
  have general : ∀ (α : Type) (L : ℤ) (c : List (ℤ × α)) (r : List α)
      (t₁ : ℤ) (q₁ : α) (rest : List (ℤ × α)),
      t₁ < L + minInterval →
      (∀ x ∈ rest, x.1 < L + minInterval) →
      runSchedulerAndFlush ⟨L, none, none⟩ ⟨c, r⟩ ((t₁, q₁) :: rest)
        = (⟨L + minInterval, none, none⟩,
           ⟨c ++ [(L + minInterval,
                    (q₁ :: rest.map Prod.snd).getLast (by simp))],
            r ++ (q₁ :: rest.map Prod.snd).dropLast⟩) := by
    intro α L c r t₁ q₁ rest ht hrest
    unfold runSchedulerAndFlush
    rw [runScheduler]
    simp only [convertImage]
    rw [if_neg (show ¬(t₁ - L ≥ minInterval) by omega)]
    rw [runScheduler_burst L c q₁ r rest hrest]
    simp only [fireThrottleTimeout]
  refine ⟨general, ?_⟩
  intro α o₁ o₂ o₃ o₄ o₅ o₆ o₇ o₈ o₉ o₁₀
  have hstep : runScheduler (⟨0, none, none⟩ : ThrottleState α) ⟨[], []⟩
      [(1000, o₁), (1005, o₂), (1010, o₃), (1015, o₄), (1020, o₅),
       (1025, o₆), (1030, o₇), (1035, o₈), (1040, o₉), (1045, o₁₀)]
      = runScheduler (⟨1000, none, none⟩ : ThrottleState α)
          ⟨[(1000, o₁)], []⟩
          [(1005, o₂), (1010, o₃), (1015, o₄), (1020, o₅), (1025, o₆),
           (1030, o₇), (1035, o₈), (1040, o₉), (1045, o₁₀)] := by
    rw [runScheduler]
    simp only [convertImage]
    rw [if_pos (show (1000 : ℤ) - 0 ≥ minInterval by
      rw [minInterval]; norm_num)]
    rfl
  have hmain := general α 1000 [(1000, o₁)] [] 1005 o₂
    [(1010, o₃), (1015, o₄), (1020, o₅), (1025, o₆), (1030, o₇),
     (1035, o₈), (1040, o₉), (1045, o₁₀)]
    (by rw [minInterval]; norm_num)
    (by
      intro x hx
      rw [minInterval]
      fin_cases hx <;> norm_num)
  rw [runSchedulerAndFlush] at hmain ⊢
  rw [hstep]
  rw [show (⟨1000, none, none⟩ : ThrottleState α)
      = ⟨(1000 : ℤ), none, none⟩ from rfl] at hmain
  rw [hmain]
  refine ⟨?_, ?_⟩
  · show (⟨[(1000, o₁)] ++ [(1000 + minInterval, _)], [] ++ _⟩ :
      ThrottleLog α) = _
    rw [minInterval]
    norm_num
  · show ([(1000, o₁)] ++ [(1000 + minInterval, _)]).length ≤ 2
    simp

/-- Witness for C4: a two-request burst inside one throttle window from an
idle scheduler. -/
theorem convertImage_coalesces_bursts_witness :
    ((10 : ℤ) < 0 + minInterval)
    ∧ (∀ x ∈ [((20 : ℤ), (9 : ℕ))], x.1 < 0 + minInterval)
    ∧ runSchedulerAndFlush (⟨0, none, none⟩ : ThrottleState ℕ) ⟨[], []⟩
        [(10, 7), (20, 9)]
      = (⟨0 + minInterval, none, none⟩,
         ⟨[] ++ [(0 + minInterval,
                   ((7 : ℕ) :: [((20 : ℤ), (9 : ℕ))].map Prod.snd).getLast
                     (by simp))],
          [] ++ ((7 : ℕ) :: [((20 : ℤ), (9 : ℕ))].map Prod.snd).dropLast⟩) :=
  ⟨by decide, by decide,
    convertImage_coalesces_bursts.1 ℕ 0 [] [] 10 7 [(20, 9)]
      (by decide) (by decide)⟩
